import Mathlib

/-!
Verification of the circuit-breaker and retry-with-backoff core of the
repository, shallowly embedded in Lean 4.

The circuit breaker is a direct translation of `circuit.Breaker`
(`package circuit`): Go `int` fields become `Int`, `time.Time` becomes
`Option Int` (absolute nanoseconds; `none` is Go's zero `time.Time`,
never set), `time.Duration` becomes `Int`.  The wrapped operation
`fn func() error` is embedded as its observed result `Option Err`
(`none` = nil error, `some e` = the error `e`), the call time
`time.Now()` as an explicit `now : Int` parameter.  The mutex is
dropped: the lock is held for the whole of `Call`, so each `Call` is
one atomic step of a sequential state machine.

The retry executor is a direct translation of `retry.WithRetry` and
`retry.calculateBackoffDelay` (`package retry`) over
`models.RetryConfig`.  Go `float64`/`time.Duration` arithmetic is
idealised as exact rational arithmetic (`ℚ`), and `rand.Float64()` is
an explicit parameter `r ∈ [0,1)` per attempt.  Logging statements
(`logrus`) have no observable effect and are omitted.
-/

namespace Circuit

/-- Operation errors are opaque; a string suffices for the model. -/
abbrev Err := String

/-- `State` represents the circuit breaker state (Go `type State int`;
`Closed`, `Open`, `HalfOpen`). -/
inductive State where
  | Closed
  | Open
  | HalfOpen
deriving DecidableEq, Repr

/-- `Breaker` implements the circuit breaker pattern (Go struct
`circuit.Breaker`; the `sync.RWMutex` is omitted, see module header). -/
structure Breaker where
  name : String
  maxFailures : Int
  resetTimeout : Int
  state : State
  failures : Int
  lastFailTime : Option Int
  successCount : Int
deriving DecidableEq, Repr

/-- `New` creates a new circuit breaker (zero values for the fields the
Go literal leaves out: `failures = 0`, `lastFailTime` = zero time,
`successCount = 0`). -/
def New (name : String) (maxFailures : Int) (resetTimeout : Int) : Breaker :=
  { name := name
    maxFailures := maxFailures
    resetTimeout := resetTimeout
    state := State.Closed
    failures := 0
    lastFailTime := none
    successCount := 0 }

/-- The Go test `time.Since(cb.lastFailTime) > cb.resetTimeout`.
Go's zero `time.Time` (our `none`) lies centuries before any real
timestamp, while a `time.Duration` can hold at most ~292 years, so on
the zero value the comparison is always true. -/
def timeSinceExceeds (lastFail : Option Int) (now timeout : Int) : Bool :=
  match lastFail with
  | none => true
  | some t => timeout < now - t

/-- Result of one `Call`: the breaker-open rejection (with its error
message), a pass-through of the operation's error, or nil. -/
inductive CallResult where
  | rejected (msg : String)
  | opFailed (e : Err)
  | ok
deriving DecidableEq, Repr

/-- The `fmt.Errorf("circuit breaker is open for %s", cb.name)` message. -/
def openErrMsg (name : String) : String :=
  "circuit breaker is open for " ++ name

/-- Lines 58–86 of `Call`: run the operation and do the bookkeeping
after it (`err := fn()` onwards).  `op` is the operation's observed
result, `now` the value `time.Now()` would return. -/
def Breaker.runOp (cb : Breaker) (op : Option Err) (now : Int) :
    Breaker × CallResult :=
  match op with
  | some e =>
    let cb' := { cb with failures := cb.failures + 1, lastFailTime := some now }
    if cb'.state = State.HalfOpen ∨ cb'.maxFailures ≤ cb'.failures then
      ({ cb' with state := State.Open }, CallResult.opFailed e)
    else
      (cb', CallResult.opFailed e)
  | none =>
    if cb.state = State.HalfOpen then
      let cb' := { cb with successCount := cb.successCount + 1 }
      if 3 ≤ cb'.successCount then
        ({ cb' with state := State.Closed, failures := 0 }, CallResult.ok)
      else
        (cb', CallResult.ok)
    else
      ({ cb with failures := 0 }, CallResult.ok)

/-- `Call` executes the given function with circuit breaker protection.
The `switch cb.state { case Open: ... }` head, then `runOp` for the
body after the switch. -/
def Breaker.Call (cb : Breaker) (op : Option Err) (now : Int) :
    Breaker × CallResult :=
  match cb.state with
  | State.Open =>
    if timeSinceExceeds cb.lastFailTime now cb.resetTimeout then
      Breaker.runOp { cb with state := State.HalfOpen, successCount := 0 } op now
    else
      (cb, CallResult.rejected (openErrMsg cb.name))
  | _ => Breaker.runOp cb op now

/-- `GetState` returns the current state of the circuit breaker. -/
def Breaker.GetState (cb : Breaker) : String :=
  match cb.state with
  | State.Closed => "closed"
  | State.Open => "open"
  | State.HalfOpen => "half-open"

/-- `GetFailures` returns the current failure count. -/
def Breaker.GetFailures (cb : Breaker) : Int :=
  cb.failures

/-- `GetLastFailTime` returns the last failure time. -/
def Breaker.GetLastFailTime (cb : Breaker) : Option Int :=
  cb.lastFailTime

/-- `GetSuccessCount` returns the current success count in half-open state. -/
def Breaker.GetSuccessCount (cb : Breaker) : Int :=
  cb.successCount

/-- `Reset` resets the circuit breaker to closed state. -/
def Breaker.Reset (cb : Breaker) : Breaker :=
  { cb with state := State.Closed, failures := 0, successCount := 0 }

/-- Breakers reachable from construction by any sequence of `Call` and
`Reset` operations. -/
inductive Reachable : Breaker → Prop where
  | new (name : String) (maxFailures resetTimeout : Int) :
      Reachable (New name maxFailures resetTimeout)
  | call {cb : Breaker} (op : Option Err) (now : Int) :
      Reachable cb → Reachable (cb.Call op now).1
  | reset {cb : Breaker} : Reachable cb → Reachable cb.Reset

end Circuit

namespace Circuit

lemma timeSinceExceeds_false {t now timeout : Int} (h : now - t ≤ timeout) :
    timeSinceExceeds (some t) now timeout = false := by
  simp only [timeSinceExceeds, decide_eq_false_iff_not, not_lt]
  exact h

lemma timeSinceExceeds_true {t now timeout : Int} (h : timeout < now - t) :
    timeSinceExceeds (some t) now timeout = true := by
  simp only [timeSinceExceeds, decide_eq_true_eq]
  exact h

lemma call_of_open_rejected {cb : Breaker} (op : Option Err) (now : Int)
    (hst : cb.state = State.Open)
    (ht : timeSinceExceeds cb.lastFailTime now cb.resetTimeout = false) :
    cb.Call op now = (cb, CallResult.rejected (openErrMsg cb.name)) := by
  unfold Breaker.Call
  rw [hst, ht]
  simp

lemma call_of_open_probe {cb : Breaker} (op : Option Err) (now : Int)
    (hst : cb.state = State.Open)
    (ht : timeSinceExceeds cb.lastFailTime now cb.resetTimeout = true) :
    cb.Call op now =
      Breaker.runOp { cb with state := State.HalfOpen, successCount := 0 } op now := by
  unfold Breaker.Call
  rw [hst, ht]
  simp

lemma call_of_closed {cb : Breaker} (op : Option Err) (now : Int)
    (hst : cb.state = State.Closed) :
    cb.Call op now = Breaker.runOp cb op now := by
  unfold Breaker.Call
  rw [hst]

lemma call_of_halfOpen {cb : Breaker} (op : Option Err) (now : Int)
    (hst : cb.state = State.HalfOpen) :
    cb.Call op now = Breaker.runOp cb op now := by
  unfold Breaker.Call
  rw [hst]

/-- C7: `Reset` forces state Closed, failures 0, successCount 0, and
leaves `lastFailTime`, `name`, `maxFailures`, `resetTimeout` unchanged. -/
theorem reset_closed_frame (cb : Breaker) :
    cb.Reset.state = State.Closed ∧
    cb.Reset.failures = 0 ∧
    cb.Reset.successCount = 0 ∧
    cb.Reset.lastFailTime = cb.lastFailTime ∧
    cb.Reset.name = cb.name ∧
    cb.Reset.maxFailures = cb.maxFailures ∧
    cb.Reset.resetTimeout = cb.resetTimeout :=
  ⟨rfl, rfl, rfl, rfl, rfl, rfl, rfl⟩

/-- C2: an Open breaker rejects with the "circuit breaker is open for
`<name>`" error and no state change while `now - lastFailTime` is not
greater than `resetTimeout` (for every operation, i.e. without invoking
it); once `now - lastFailTime` exceeds `resetTimeout` the call first
moves the breaker to HalfOpen with `successCount = 0` and then executes
the operation as a probe. -/
theorem open_rejects_before_timeout_probes_after (cb : Breaker)
    (op : Option Err) (now t : Int)
    (hst : cb.state = State.Open) (hlf : cb.lastFailTime = some t) :
    (now - t ≤ cb.resetTimeout →
      cb.Call op now = (cb, CallResult.rejected (openErrMsg cb.name))) ∧
    (cb.resetTimeout < now - t →
      cb.Call op now =
        Breaker.runOp { cb with state := State.HalfOpen, successCount := 0 }
          op now) := by
  constructor
  · intro h
    exact call_of_open_rejected op now hst (hlf ▸ timeSinceExceeds_false h)
  · intro h
    exact call_of_open_probe op now hst (hlf ▸ timeSinceExceeds_true h)

/-- C2 witness at a concrete Open breaker. -/
theorem open_rejects_before_timeout_probes_after_witness :
    ({ name := "db", maxFailures := 1, resetTimeout := 30,
       state := State.Open, failures := 1, lastFailTime := some 0,
       successCount := 0 : Breaker }.Call none 10) =
      ({ name := "db", maxFailures := 1, resetTimeout := 30,
         state := State.Open, failures := 1, lastFailTime := some 0,
         successCount := 0 : Breaker },
       CallResult.rejected (openErrMsg "db")) :=
  (open_rejects_before_timeout_probes_after _ none 10 0 rfl rfl).1 (by decide)

/-- C3: a HalfOpen breaker that sees one failing operation goes back to
Open with `failures` incremented (not reset) and `lastFailTime`
updated; three consecutive successful operations leave it Closed with
`failures = 0`. -/
theorem halfOpen_fail_reopens_three_successes_close (cb : Breaker)
    (hst : cb.state = State.HalfOpen) (hsc : 0 ≤ cb.successCount) :
    (∀ (e : Err) (now : Int),
      cb.Call (some e) now =
        ({ cb with failures := cb.failures + 1, lastFailTime := some now,
                   state := State.Open }, CallResult.opFailed e)) ∧
    (∀ t1 t2 t3 : Int,
      ((((cb.Call none t1).1.Call none t2).1.Call none t3).1.state
          = State.Closed ∧
       (((cb.Call none t1).1.Call none t2).1.Call none t3).1.failures = 0)) := by
  obtain ⟨n, mf, rt, st, f, lft, sc⟩ := cb
  simp only at hst hsc
  subst hst
  constructor
  · intro e now
    simp [Breaker.Call, Breaker.runOp]
  · intro t1 t2 t3
    by_cases h1 : (3 : Int) ≤ sc + 1
    · simp [Breaker.Call, Breaker.runOp, h1]
    · by_cases h2 : (3 : Int) ≤ sc + 1 + 1
      · simp [Breaker.Call, Breaker.runOp, h1, h2]
      · have hsc0 : sc = 0 := by omega
        subst hsc0
        norm_num [Breaker.Call, Breaker.runOp]

/-- C3 witness at a concrete HalfOpen breaker. -/
theorem halfOpen_fail_reopens_three_successes_close_witness :
    ({ name := "db", maxFailures := 2, resetTimeout := 30,
       state := State.HalfOpen, failures := 2, lastFailTime := some 0,
       successCount := 0 : Breaker }.Call (some "boom") 40) =
      ({ name := "db", maxFailures := 2, resetTimeout := 30,
         state := State.Open, failures := 3, lastFailTime := some 40,
         successCount := 0 : Breaker }, CallResult.opFailed "boom") :=
  (halfOpen_fail_reopens_three_successes_close _ rfl (by decide)).1 "boom" 40

end Circuit

namespace Circuit

/-- `i` consecutive calls whose operations fail, with arbitrary error
values `errs` and call times `times`. -/
def iterFail (errs : Nat → Err) (times : Nat → Int) (cb : Breaker) :
    Nat → Breaker
  | 0 => cb
  | n + 1 => ((iterFail errs times cb n).Call (some (errs n)) (times n)).1

lemma runOp_fail_closed (cb : Breaker) (e : Err) (now : Int)
    (hst : cb.state = State.Closed) :
    Breaker.runOp cb (some e) now =
      ({ cb with
           failures := cb.failures + 1
           lastFailTime := some now
           state := (if cb.maxFailures ≤ cb.failures + 1 then State.Open
                     else State.Closed) },
       CallResult.opFailed e) := by
  obtain ⟨n, mf, rt, st, f, lft, sc⟩ := cb
  simp only at hst
  subst hst
  by_cases h : mf ≤ f + 1
  · simp [Breaker.runOp, h]
  · simp [Breaker.runOp, h]

lemma iterFail_closed_spec (errs : Nat → Err) (times : Nat → Int)
    (cb : Breaker) (k : Nat)
    (hmf : cb.maxFailures = (k : Int)) (hst : cb.state = State.Closed)
    (hf : cb.failures = 0) :
    ∀ i, 1 ≤ i → i ≤ k →
      iterFail errs times cb i =
        { cb with
            state := if i < k then State.Closed else State.Open,
            failures := (i : Int),
            lastFailTime := some (times (i - 1)) } := by
  intro i
  induction i with
  | zero => omega
  | succ j ih =>
    intro _ hik
    rcases Nat.eq_zero_or_pos j with hj | hj
    · subst hj
      have h1 : iterFail errs times cb (0 + 1)
          = (cb.Call (some (errs 0)) (times 0)).1 := rfl
      rw [h1, call_of_closed _ _ hst, runOp_fail_closed cb _ _ hst, hf, hmf]
      by_cases hcase : 0 + 1 < k
      · have hc1 : ¬ ((k : Int) ≤ 0 + 1) := by push_cast at hcase ⊢; omega
        simp [hc1, hcase]
      · have hc1 : ((k : Int) ≤ 0 + 1) := by push_cast at hcase ⊢; omega
        simp [hc1, hcase]
    · have hstep := ih hj (by omega)
      have hjlt : j < k := by omega
      have hstate : (iterFail errs times cb j).state = State.Closed := by
        rw [hstep]; simp [hjlt]
      have h1 : iterFail errs times cb (j + 1)
          = ((iterFail errs times cb j).Call (some (errs j)) (times j)).1 := rfl
      rw [h1, call_of_closed _ _ hstate, runOp_fail_closed _ _ _ hstate, hstep]
      by_cases hcase : j + 1 < k
      · have hc1 : ¬ ((k : Int) ≤ (j : Int) + 1) := by push_cast at hcase ⊢; omega
        simp [hc1, hcase, hmf]
      · have hc1 : ((k : Int) ≤ (j : Int) + 1) := by push_cast at hcase ⊢; omega
        simp [hc1, hcase, hmf]

/-- C1: starting from a Closed breaker with `failures = 0` and
`maxFailures = k > 0`, after exactly `k` consecutive failing calls the
state is Open with `failures = k`; a further call made while
`now - lastFailTime` does not exceed `resetTimeout` is rejected with
the breaker-open error, identically for every operation (so the
operation is not invoked) and with the breaker — in particular
`failures = k` — unchanged. -/
theorem closed_k_failures_open_then_reject (cb : Breaker) (k : Nat)
    (errs : Nat → Err) (times : Nat → Int)
    (hk : 0 < k) (hmf : cb.maxFailures = (k : Int))
    (hst : cb.state = State.Closed) (hf : cb.failures = 0) :
    (iterFail errs times cb k).state = State.Open ∧
    (iterFail errs times cb k).failures = (k : Int) ∧
    (iterFail errs times cb k).lastFailTime = some (times (k - 1)) ∧
    ∀ (op : Option Err) (now : Int),
      now - times (k - 1) ≤ cb.resetTimeout →
        (iterFail errs times cb k).Call op now =
          (iterFail errs times cb k,
           CallResult.rejected (openErrMsg cb.name)) := by
  have hspec := iterFail_closed_spec errs times cb k hmf hst hf k hk le_rfl
  have hlt : ¬ (k < k) := lt_irrefl _
  rw [hspec]
  refine ⟨by simp [hlt], by simp, by simp, ?_⟩
  intro op now hnow
  apply call_of_open_rejected
  · simp [hlt]
  · simpa using timeSinceExceeds_false hnow

/-- C1 witness: `maxFailures = 2`, two failing calls, then a rejected
call within the reset timeout. -/
theorem closed_k_failures_open_then_reject_witness :
    (iterFail (fun _ => "boom") (fun i => (i : Int)) (New "db" 2 30) 2).state
        = State.Open ∧
    (iterFail (fun _ => "boom") (fun i => (i : Int)) (New "db" 2 30) 2).failures
        = (2 : Int) := by
  have h := closed_k_failures_open_then_reject (New "db" 2 30) 2
    (fun _ => "boom") (fun i => (i : Int)) (by decide) rfl rfl rfl
  exact ⟨h.1, h.2.1⟩

lemma reachable_tripped {cb : Breaker} (h : Reachable cb) :
    (cb.state = State.Open ∨ cb.state = State.HalfOpen) →
      cb.maxFailures ≤ cb.failures ∧ cb.lastFailTime.isSome = true := by
  induction h with
  | new name mf rt =>
    intro hc
    rcases hc with hc | hc <;> simp [New] at hc
  | reset hr ih =>
    intro hc
    rcases hc with hc | hc <;> simp [Breaker.Reset] at hc
  | @call cb op now hr ih =>
    obtain ⟨n, mf, rt, st, f, lft, sc⟩ := cb
    simp only at ih
    cases st with
    | Closed =>
      cases op with
      | none =>
        intro hc
        simp [Breaker.Call, Breaker.runOp] at hc
      | some e =>
        by_cases hcl : mf ≤ f + 1
        · intro _
          simp [Breaker.Call, Breaker.runOp, hcl]
        · intro hc
          simp [Breaker.Call, Breaker.runOp, hcl] at hc
    | Open =>
      obtain ⟨hmfle, hsome⟩ := ih (Or.inl rfl)
      by_cases ht : timeSinceExceeds lft now rt = true
      · cases op with
        | none =>
          intro _
          simp [Breaker.Call, Breaker.runOp, ht]
          exact ⟨hmfle, hsome⟩
        | some e =>
          intro _
          simp [Breaker.Call, Breaker.runOp, ht]
          omega
      · rw [Bool.not_eq_true] at ht
        intro _
        simp [Breaker.Call, Breaker.runOp, ht]
        exact ⟨hmfle, hsome⟩
    | HalfOpen =>
      obtain ⟨hmfle, hsome⟩ := ih (Or.inr rfl)
      cases op with
      | none =>
        by_cases hsc : (3 : Int) ≤ sc + 1
        · intro hc
          simp [Breaker.Call, Breaker.runOp, hsc] at hc
        · intro _
          simp [Breaker.Call, Breaker.runOp, hsc]
          exact ⟨hmfle, hsome⟩
      | some e =>
        intro _
        simp [Breaker.Call, Breaker.runOp]
        omega

/-- C8: in every breaker reachable by `Call`/`Reset` steps from
construction with positive `maxFailures`, `state = Open` implies
`failures ≥ maxFailures` and `lastFailTime` is set.  Since `failures`
never changes while the breaker stays Open, this is exactly the state
that held at the most recent transition into Open. -/
theorem open_implies_threshold_and_lastFail (cb : Breaker)
    (h : Reachable cb) (_hpos : 0 < cb.maxFailures)
    (hst : cb.state = State.Open) :
    cb.maxFailures ≤ cb.failures ∧ cb.lastFailTime.isSome = true :=
  reachable_tripped h (Or.inl hst)

/-- C8 witness: one failing call on a fresh `maxFailures = 1` breaker. -/
theorem open_implies_threshold_and_lastFail_witness :
    ((New "db" 1 30).Call (some "boom") 0).1.maxFailures
        ≤ ((New "db" 1 30).Call (some "boom") 0).1.failures ∧
    ((New "db" 1 30).Call (some "boom") 0).1.lastFailTime.isSome = true :=
  open_implies_threshold_and_lastFail _
    (Reachable.call (some "boom") 0 (Reachable.new "db" 1 30))
    (by decide) (by decide)

/-- A reachable breaker that has left HalfOpen towards Open with a
stale positive `successCount`: one failure trips the `maxFailures = 1`
breaker, a successful probe after the timeout moves it to HalfOpen with
one success counted, and a further failure sends it back to Open
without clearing `successCount`. -/
def staleSuccessTrace : Breaker :=
  ((((New "db" 1 30).Call (some "e1") 0).1.Call none 31).1.Call
    (some "e2") 31).1

/-- C6 counterexample: it is not the case that every reachable breaker
outside HalfOpen has `successCount = 0` — the code resets
`successCount` on entering HalfOpen, not on leaving it. -/
theorem successCount_zero_outside_halfOpen_fails :
    ¬ (∀ cb : Breaker, Reachable cb → cb.state ≠ State.HalfOpen →
        cb.GetSuccessCount = 0) := by
  intro hclaim
  have hr : Reachable staleSuccessTrace :=
    Reachable.call (some "e2") 31
      (Reachable.call none 31
        (Reachable.call (some "e1") 0 (Reachable.new "db" 1 30)))
  have := hclaim staleSuccessTrace hr (by decide)
  revert this
  decide

/-- C6 amended: `successCount` is reset to 0 when the breaker
transitions into HalfOpen (the Open-state probe path), not when it
leaves HalfOpen; immediately after the probe the count is 1 on a
successful probe and 0 on a failed one, while a breaker that has left
HalfOpen can retain its last positive count until the next HalfOpen
entry or `Reset`. -/
theorem successCount_reset_on_entering_halfOpen (cb : Breaker)
    (op : Option Err) (now : Int) (hst : cb.state = State.Open)
    (ht : timeSinceExceeds cb.lastFailTime now cb.resetTimeout = true) :
    ((cb.Call op now).1.GetSuccessCount = if op.isSome then 0 else 1) := by
  rw [call_of_open_probe op now hst ht]
  cases op <;> simp [Breaker.runOp, Breaker.GetSuccessCount]

/-- C6 amended witness at a concrete Open breaker past its timeout. -/
theorem successCount_reset_on_entering_halfOpen_witness :
    ((({ name := "db", maxFailures := 1, resetTimeout := 30,
         state := State.Open, failures := 1, lastFailTime := some 0,
         successCount := 2 : Breaker }).Call none 31).1.GetSuccessCount
      = if (none : Option Err).isSome then 0 else 1) :=
  successCount_reset_on_entering_halfOpen _ none 31 rfl (by decide)

end Circuit

namespace Retry

/-- Operation errors are opaque; a string suffices for the model. -/
abbrev Err := String

/-- `models.RetryConfig`.  `time.Duration` and `float64` are idealised
as `ℚ` (the spec's real-valued formulas, without float rounding). -/
structure RetryConfig where
  maxAttempts : Int
  baseDelay : ℚ
  maxDelay : ℚ
  backoffFactor : ℚ
  jitter : Bool
deriving DecidableEq, Repr

/-- `calculateBackoffDelay`.  `attempt` is the 1-indexed loop counter
(`float64(attempt-1)` is the exponent; in the source it is only
evaluated with `attempt ≥ 1`, so Nat subtraction is faithful), and `r`
is the value `rand.Float64()` returned, a uniform sample in `[0,1)`. -/
def calculateBackoffDelay (config : RetryConfig) (attempt : Nat) (r : ℚ) : ℚ :=
  let delay := config.baseDelay * config.backoffFactor ^ (attempt - 1)
  let delay := if config.maxDelay < delay then config.maxDelay else delay
  if config.jitter then
    let jitterRange := delay * (1 / 10)
    let jitter := (r - 1 / 2) * 2 * jitterRange
    delay + jitter
  else
    delay

/-- The terminal error built by
`fmt.Errorf("operation %s failed after %d attempts: %w", operation,
config.MaxAttempts, lastErr)`: it carries the operation name, the
reported attempt count, and the wrapped (possibly nil) last error. -/
structure RetryExhausted where
  operation : String
  attempts : Int
  wrapped : Option Err
deriving DecidableEq, Repr

/-- Observable outcome of `WithRetry`: the returned error (`none` for a
nil return), how many times `fn` was invoked, and the list of delays
passed to `time.Sleep`, in order. -/
structure RetryOutcome where
  err : Option RetryExhausted
  calls : Nat
  sleeps : List ℚ
deriving DecidableEq, Repr

/-- The `for attempt := 1; attempt <= config.MaxAttempts; attempt++`
loop of `WithRetry`.  `ops attempt` is the result `fn()` returns on the
given attempt (`none` = nil), `rnd attempt` the random sample used for
that attempt's jitter.  `fuel` only bounds the recursion; it is chosen
(in `WithRetry`) larger than the number of loop iterations, so the
fuel-exhausted case — which returns the same terminal error as a
failed loop condition — is never reached. -/
def retryLoop (operation : String) (config : RetryConfig)
    (ops : Nat → Option Err) (rnd : Nat → ℚ) :
    Nat → Nat → Option Err → RetryOutcome
  | 0, _, lastErr =>
    { err := some ⟨operation, config.maxAttempts, lastErr⟩, calls := 0,
      sleeps := [] }
  | fuel + 1, attempt, lastErr =>
    if (attempt : Int) > config.maxAttempts then
      { err := some ⟨operation, config.maxAttempts, lastErr⟩, calls := 0,
        sleeps := [] }
    else
      match ops attempt with
      | none => { err := none, calls := 1, sleeps := [] }
      | some e =>
        if (attempt : Int) = config.maxAttempts then
          { err := some ⟨operation, config.maxAttempts, some e⟩, calls := 1,
            sleeps := [] }
        else
          let delay := calculateBackoffDelay config attempt (rnd attempt)
          let rest := retryLoop operation config ops rnd fuel (attempt + 1)
            (some e)
          { err := rest.err, calls := rest.calls + 1,
            sleeps := delay :: rest.sleeps }

/-- `WithRetry` executes the given function with retry logic.  The loop
makes at most `max maxAttempts 0` iterations, so
`maxAttempts.toNat + 1` fuel is never exhausted. -/
def WithRetry (operation : String) (config : RetryConfig)
    (ops : Nat → Option Err) (rnd : Nat → ℚ) : RetryOutcome :=
  retryLoop operation config ops rnd (config.maxAttempts.toNat + 1) 1 none

/-- C10: with `maxAttempts ≤ 0` the loop body never runs: the operation
is invoked zero times, nothing is slept, and the returned error is
non-nil, reports `maxAttempts` attempts, and wraps the nil `lastErr`. -/
theorem withRetry_nonpos_maxAttempts (operation : String)
    (config : RetryConfig) (ops : Nat → Option Err) (rnd : Nat → ℚ)
    (h : config.maxAttempts ≤ 0) :
    WithRetry operation config ops rnd =
      { err := some ⟨operation, config.maxAttempts, none⟩, calls := 0,
        sleeps := [] } := by
  have htn : config.maxAttempts.toNat = 0 := Int.toNat_of_nonpos h
  have hgt : ((1 : Nat) : Int) > config.maxAttempts := by omega
  unfold WithRetry
  rw [htn]
  simp only [retryLoop]
  rw [if_pos hgt]

lemma retryLoop_all_fail (operation : String) (config : RetryConfig)
    (ops : Nat → Option Err) (rnd : Nat → ℚ) (n : Nat)
    (hn : config.maxAttempts = (n : Int)) :
    ∀ (k a fuel : Nat) (lastErr : Option Err),
      a + k = n → 1 ≤ a → k + 1 ≤ fuel →
      (∀ i, a ≤ i → i ≤ n → (ops i).isSome = true) →
      (retryLoop operation config ops rnd fuel a lastErr).err =
          some ⟨operation, (n : Int), ops n⟩ ∧
      (retryLoop operation config ops rnd fuel a lastErr).calls = k + 1 ∧
      (retryLoop operation config ops rnd fuel a lastErr).sleeps.length
          = k := by
  intro k
  induction k with
  | zero =>
    intro a fuel lastErr hak ha hfuel hfail
    obtain ⟨f, rfl⟩ : ∃ f, fuel = f + 1 :=
      ⟨fuel - 1, by omega⟩
    have han : a = n := by omega
    subst han
    have hng : ¬ ((a : Int) > config.maxAttempts) := by
      rw [hn]; omega
    obtain ⟨e, he⟩ := Option.isSome_iff_exists.1 (hfail a le_rfl le_rfl)
    have heq : ((a : Int) = config.maxAttempts) := by rw [hn]
    simp only [retryLoop, if_neg hng, he, if_pos heq]
    exact ⟨by rw [hn, ← he], by simp, by simp⟩
  | succ k ih =>
    intro a fuel lastErr hak ha hfuel hfail
    obtain ⟨f, rfl⟩ : ∃ f, fuel = f + 1 := ⟨fuel - 1, by omega⟩
    have haln : a < n := by omega
    have hng : ¬ ((a : Int) > config.maxAttempts) := by
      rw [hn]
      have : (a : Int) < (n : Int) := by exact_mod_cast haln
      omega
    have hne : ¬ ((a : Int) = config.maxAttempts) := by
      rw [hn]
      have : (a : Int) < (n : Int) := by exact_mod_cast haln
      omega
    obtain ⟨e, he⟩ := Option.isSome_iff_exists.1
      (hfail a le_rfl (by omega))
    have hrest := ih (a + 1) f (some e) (by omega) (by omega) (by omega)
      (fun i hi hin => hfail i (by omega) hin)
    simp only [retryLoop, if_neg hng, he, if_neg hne]
    refine ⟨hrest.1, ?_, ?_⟩
    · simp [hrest.2.1]
    · simp [hrest.2.2]

lemma retryLoop_success (operation : String) (config : RetryConfig)
    (ops : Nat → Option Err) (rnd : Nat → ℚ) (n : Nat)
    (hn : config.maxAttempts = (n : Int)) :
    ∀ (k a fuel : Nat) (lastErr : Option Err),
      a + k ≤ n → 1 ≤ a → k + 1 ≤ fuel →
      (∀ i, a ≤ i → i < a + k → (ops i).isSome = true) →
      ops (a + k) = none →
      (retryLoop operation config ops rnd fuel a lastErr).err = none ∧
      (retryLoop operation config ops rnd fuel a lastErr).calls = k + 1 ∧
      (retryLoop operation config ops rnd fuel a lastErr).sleeps.length
          = k := by
  intro k
  induction k with
  | zero =>
    intro a fuel lastErr hak ha hfuel hfail hsucc
    obtain ⟨f, rfl⟩ : ∃ f, fuel = f + 1 := ⟨fuel - 1, by omega⟩
    have hng : ¬ ((a : Int) > config.maxAttempts) := by
      rw [hn]
      have : (a : Int) ≤ (n : Int) := by exact_mod_cast (by omega : a ≤ n)
      omega
    have hs : ops a = none := by simpa using hsucc
    simp only [retryLoop, if_neg hng, hs]
    exact ⟨by simp, by simp, by simp⟩
  | succ k ih =>
    intro a fuel lastErr hak ha hfuel hfail hsucc
    obtain ⟨f, rfl⟩ : ∃ f, fuel = f + 1 := ⟨fuel - 1, by omega⟩
    have haln : a < n := by omega
    have hng : ¬ ((a : Int) > config.maxAttempts) := by
      rw [hn]
      have : (a : Int) < (n : Int) := by exact_mod_cast haln
      omega
    have hne : ¬ ((a : Int) = config.maxAttempts) := by
      rw [hn]
      have : (a : Int) < (n : Int) := by exact_mod_cast haln
      omega
    obtain ⟨e, he⟩ := Option.isSome_iff_exists.1
      (hfail a le_rfl (by omega))
    have hsucc' : ops (a + 1 + k) = none := by
      have : a + 1 + k = a + (k + 1) := by omega
      rw [this]; exact hsucc
    have hrest := ih (a + 1) f (some e) (by omega) (by omega) (by omega)
      (fun i hi hin => hfail i (by omega) (by omega)) hsucc'
    simp only [retryLoop, if_neg hng, he, if_neg hne]
    refine ⟨hrest.1, ?_, ?_⟩
    · simp [hrest.2.1]
    · simp [hrest.2.2]

/-- C4: with `maxAttempts = n ≥ 1`, an operation that first succeeds on
attempt `j ≤ n` is invoked exactly `j` times, the result is nil, and
only `j - 1` sleeps happen (none after the success); an operation that
fails on every attempt is invoked exactly `n` times with `n - 1` sleeps
(none after the `n`-th attempt), and the returned error names the
operation, reports `n` attempts, and wraps the last observed error
`ops n`. -/
theorem withRetry_invocation_counts (operation : String)
    (config : RetryConfig) (ops : Nat → Option Err) (rnd : Nat → ℚ)
    (n : Nat) (hn : 1 ≤ n) (hcfg : config.maxAttempts = (n : Int)) :
    (∀ j, 1 ≤ j → j ≤ n →
      (∀ i, 1 ≤ i → i < j → (ops i).isSome = true) → ops j = none →
      (WithRetry operation config ops rnd).err = none ∧
      (WithRetry operation config ops rnd).calls = j ∧
      (WithRetry operation config ops rnd).sleeps.length = j - 1) ∧
    ((∀ i, 1 ≤ i → i ≤ n → (ops i).isSome = true) →
      (WithRetry operation config ops rnd).err =
          some ⟨operation, (n : Int), ops n⟩ ∧
      (WithRetry operation config ops rnd).calls = n ∧
      (WithRetry operation config ops rnd).sleeps.length = n - 1) := by
  have hfuel : config.maxAttempts.toNat + 1 = n + 1 := by
    rw [hcfg]; simp
  constructor
  · intro j hj hjn hfail hsucc
    have h := retryLoop_success operation config ops rnd n hcfg (j - 1) 1
      (n + 1) none (by omega) le_rfl (by omega)
      (fun i hi hin => hfail i hi (by omega))
      (by have : 1 + (j - 1) = j := by omega
          rw [this]; exact hsucc)
    unfold WithRetry
    rw [hfuel]
    refine ⟨h.1, ?_, ?_⟩
    · rw [h.2.1]; omega
    · exact h.2.2
  · intro hfail
    have h := retryLoop_all_fail operation config ops rnd n hcfg (n - 1) 1
      (n + 1) none (by omega) le_rfl (by omega)
      (fun i hi hin => hfail i hi hin)
    unfold WithRetry
    rw [hfuel]
    refine ⟨h.1, ?_, ?_⟩
    · rw [h.2.1]; omega
    · exact h.2.2

/-- C4 witness: `maxAttempts = 2`, failure then success — two calls,
one sleep, nil result. -/
theorem withRetry_invocation_counts_witness :
    (WithRetry "op"
      { maxAttempts := 2, baseDelay := 1, maxDelay := 10,
        backoffFactor := 2, jitter := false }
      (fun i => if i = 1 then some "e" else none) (fun _ => 0)).err
        = none ∧
    (WithRetry "op"
      { maxAttempts := 2, baseDelay := 1, maxDelay := 10,
        backoffFactor := 2, jitter := false }
      (fun i => if i = 1 then some "e" else none) (fun _ => 0)).calls
        = 2 := by
  have h := (withRetry_invocation_counts "op"
    { maxAttempts := 2, baseDelay := 1, maxDelay := 10,
      backoffFactor := 2, jitter := false }
    (fun i => if i = 1 then some "e" else none) (fun _ => 0) 2
    (by decide) rfl).1 2 (by decide) (by decide)
    (fun i hi hin => by interval_cases i; decide) (by decide)
  exact ⟨h.1, h.2.1⟩

lemma if_maxDelay_lt_eq_min (a m : ℚ) : (if m < a then m else a) = min a m := by
  rcases le_or_lt a m with h | h
  · rw [if_neg (not_lt.2 h), min_eq_left h]
  · rw [if_pos h, min_eq_right h.le]

lemma calculateBackoffDelay_no_jitter (config : RetryConfig)
    (attempt : Nat) (r : ℚ) (h : config.jitter = false) :
    calculateBackoffDelay config attempt r =
      min (config.baseDelay * config.backoffFactor ^ (attempt - 1))
        config.maxDelay := by
  simp only [calculateBackoffDelay, h, if_maxDelay_lt_eq_min, Bool.false_eq_true,
    if_false]

lemma calculateBackoffDelay_jitter (config : RetryConfig)
    (attempt : Nat) (r : ℚ) (h : config.jitter = true) :
    calculateBackoffDelay config attempt r =
      (min (config.baseDelay * config.backoffFactor ^ (attempt - 1))
        config.maxDelay) * (9 / 10 + r / 5) := by
  simp only [calculateBackoffDelay, h, if_maxDelay_lt_eq_min, if_true]
  ring

/-- The config of the C5 counterexample: jitter on, base delay already
at the cap. -/
def cappedJitterConfig : RetryConfig :=
  { maxAttempts := 3, baseDelay := 100, maxDelay := 100,
    backoffFactor := 1, jitter := true }

/-- C5 counterexample: with jitter enabled the computed delay is NOT
always at most `maxDelay` — the jitter is added after the `maxDelay`
clamp with no re-clamp, so a random sample of `9/10` on a capped delay
yields `108 > maxDelay = 100`. -/
theorem backoff_delay_exceeds_maxDelay :
    (0 ≤ (9 / 10 : ℚ) ∧ (9 / 10 : ℚ) < 1) ∧
    cappedJitterConfig.maxDelay
      < calculateBackoffDelay cappedJitterConfig 1 (9 / 10) := by
  refine ⟨⟨by norm_num, by norm_num⟩, ?_⟩
  norm_num [calculateBackoffDelay, cappedJitterConfig]

/-- C5 amended: for non-negative `baseDelay`, `backoffFactor`,
`maxDelay` and a jitter sample `r ∈ [0,1)`, the delay with jitter
disabled is exactly `min (baseDelay * backoffFactor^(n-1)) maxDelay`;
with jitter enabled it is that clamped value scaled by
`9/10 + r/5 ∈ [0.9, 1.1)` (the uniform ±10% adjustment, applied after
the clamp, with no clamp-at-0 in the code); in every case the result
is at least 0 but only bounded by `1.1 * maxDelay`, not `maxDelay`. -/
theorem backoff_delay_formula_and_bounds (config : RetryConfig)
    (attempt : Nat) (r : ℚ) (hb : 0 ≤ config.baseDelay)
    (hf : 0 ≤ config.backoffFactor) (hm : 0 ≤ config.maxDelay)
    (hr0 : 0 ≤ r) (hr1 : r < 1) :
    (config.jitter = false →
      calculateBackoffDelay config attempt r =
        min (config.baseDelay * config.backoffFactor ^ (attempt - 1))
          config.maxDelay) ∧
    (config.jitter = true →
      calculateBackoffDelay config attempt r =
        (min (config.baseDelay * config.backoffFactor ^ (attempt - 1))
          config.maxDelay) * (9 / 10 + r / 5)) ∧
    0 ≤ calculateBackoffDelay config attempt r ∧
    calculateBackoffDelay config attempt r ≤ 11 / 10 * config.maxDelay := by
  have hv0 : 0 ≤ min (config.baseDelay * config.backoffFactor ^ (attempt - 1))
      config.maxDelay :=
    le_min (mul_nonneg hb (pow_nonneg hf _)) hm
  have hvm : min (config.baseDelay * config.backoffFactor ^ (attempt - 1))
      config.maxDelay ≤ config.maxDelay := min_le_right _ _
  refine ⟨calculateBackoffDelay_no_jitter config attempt r,
    calculateBackoffDelay_jitter config attempt r, ?_, ?_⟩
  · cases hj : config.jitter
    · rw [calculateBackoffDelay_no_jitter config attempt r hj]
      exact hv0
    · rw [calculateBackoffDelay_jitter config attempt r hj]
      have : (0 : ℚ) ≤ 9 / 10 + r / 5 := by linarith
      exact mul_nonneg hv0 this
  · cases hj : config.jitter
    · rw [calculateBackoffDelay_no_jitter config attempt r hj]
      linarith
    · rw [calculateBackoffDelay_jitter config attempt r hj]
      nlinarith [hv0, hvm]

/-- C5 amended witness at a concrete config and sample. -/
theorem backoff_delay_formula_and_bounds_witness :
    0 ≤ calculateBackoffDelay cappedJitterConfig 1 (1 / 2) ∧
    calculateBackoffDelay cappedJitterConfig 1 (1 / 2)
      ≤ 11 / 10 * cappedJitterConfig.maxDelay := by
  have h := backoff_delay_formula_and_bounds cappedJitterConfig 1 (1 / 2)
    (by norm_num [cappedJitterConfig]) (by norm_num [cappedJitterConfig])
    (by norm_num [cappedJitterConfig]) (by norm_num) (by norm_num)
  exact ⟨h.2.2.1, h.2.2.2⟩

/-- C9: with jitter disabled, `baseDelay ≥ 0` and `backoffFactor ≥ 1`,
the computed delay is monotonically non-decreasing in the attempt
number, and once it equals `maxDelay` it stays equal to `maxDelay`. -/
theorem backoff_delay_monotone (config : RetryConfig) (i : Nat)
    (hj : config.jitter = false) (hb : 0 ≤ config.baseDelay)
    (hf : 1 ≤ config.backoffFactor) (hi : 1 ≤ i) (r r' : ℚ) :
    calculateBackoffDelay config i r
        ≤ calculateBackoffDelay config (i + 1) r' ∧
    (calculateBackoffDelay config i r = config.maxDelay →
      calculateBackoffDelay config (i + 1) r' = config.maxDelay) := by
  rw [calculateBackoffDelay_no_jitter config i r hj,
    calculateBackoffDelay_no_jitter config (i + 1) r' hj]
  have hexp : i - 1 ≤ i + 1 - 1 := by omega
  have hpow : config.backoffFactor ^ (i - 1)
      ≤ config.backoffFactor ^ (i + 1 - 1) :=
    pow_le_pow_right₀ hf hexp
  have hbase : config.baseDelay * config.backoffFactor ^ (i - 1)
      ≤ config.baseDelay * config.backoffFactor ^ (i + 1 - 1) :=
    mul_le_mul_of_nonneg_left hpow hb
  constructor
  · exact min_le_min hbase le_rfl
  · intro hcap
    have hge : config.maxDelay
        ≤ config.baseDelay * config.backoffFactor ^ (i - 1) :=
      min_eq_right_iff.1 hcap
    exact min_eq_right (le_trans hge hbase)

/-- C9 witness: `baseDelay = 1`, `backoffFactor = 2`, attempt 1 → 2. -/
theorem backoff_delay_monotone_witness :
    calculateBackoffDelay
        { maxAttempts := 3, baseDelay := 1, maxDelay := 10,
          backoffFactor := 2, jitter := false } 1 0
      ≤ calculateBackoffDelay
        { maxAttempts := 3, baseDelay := 1, maxDelay := 10,
          backoffFactor := 2, jitter := false } 2 0 :=
  (backoff_delay_monotone
    { maxAttempts := 3, baseDelay := 1, maxDelay := 10,
      backoffFactor := 2, jitter := false } 1 rfl (by norm_num)
    (by norm_num) le_rfl 0 0).1

/-- C10 witness at `maxAttempts = 0`. -/
theorem withRetry_nonpos_maxAttempts_witness :
    WithRetry "op"
      { maxAttempts := 0, baseDelay := 1, maxDelay := 10,
        backoffFactor := 2, jitter := false }
      (fun _ => none) (fun _ => 0) =
      { err := some ⟨"op", 0, none⟩, calls := 0, sleeps := [] } :=
  withRetry_nonpos_maxAttempts "op" _ _ _ (by decide)

end Retry
